import Mathlib

/-!
Verification development for the line-editor repository.

It gives a shallow embedding of the client point-sequence editor
(app/components/RouteVisualizer.tsx) and of the two server image
pipelines (app/api/upload-image/route.ts and
app/api/optimize-route-line/route.ts), and proves theorems about the
properties stated in the specification.
-/

/-!
Part 1: the upload-image compression loop
(app/api/upload-image/route.ts, the while-true loop).

The sharp webp encoder is external; it is modelled as an arbitrary
size function enc taking the resize width, the resize height and the
quality to the byte length of the encoded buffer.
-/

/-- Byte budget of the upload-image compression loop. The source sets
MAX_SIZE_KB = 300 and compares finalBuffer.length / 1024 with it; for a
natural byte count that floating comparison is exact and equivalent to
length at most 307200 bytes. -/
def MAX_SIZE_BYTES : ℕ := 307200

/-- JavaScript Math.round (w * 0.9) for a natural w. The double product
w * 0.9 rounds to the nearest double, which for every natural w keeps the
comparison grid of Math.round intact, so the result is round-half-up of
the rational 9w/10, that is (9w + 5) / 10 in natural division. -/
def jsRound09 (w : ℕ) : ℕ := (9 * w + 5) / 10

/-- Mutable state of the compression loop: currentWidth, currentHeight
and currentQuality of app/api/upload-image/route.ts. -/
structure LoopState where
  currentWidth : ℕ
  currentHeight : ℕ
  currentQuality : ℕ
deriving DecidableEq, Repr

/-- Outcome of one iteration of the while-true loop: either the loop
breaks, emitting the buffer encoded at the given width, height and
quality, or it continues with an updated state. -/
inductive StepOut where
  | emit (w h q : ℕ)
  | next (s : LoopState)
deriving DecidableEq, Repr

/-- One iteration of the compression loop. The encode of the current
iteration happens first; if its size is within budget the loop writes
that buffer and breaks. Otherwise quality drops by 10 while above 10;
once quality is at its floor the dimensions are scaled by 0.9 (with
JavaScript rounding) and quality resets to 60, except that if the scaled
dimensions fall below half the original in either axis the loop writes
the buffer of the current iteration (encoded at the pre-shrink
dimensions) and breaks. The comparison currentWidth < originalWidth * 0.5
is exact for naturals and is rendered as 2 * w < originalWidth. -/
def loopStep (enc : ℕ → ℕ → ℕ → ℕ) (originalWidth originalHeight : ℕ)
    (s : LoopState) : StepOut :=
  let size := enc s.currentWidth s.currentHeight s.currentQuality
  if size ≤ MAX_SIZE_BYTES then
    .emit s.currentWidth s.currentHeight s.currentQuality
  else if 10 < s.currentQuality then
    .next ⟨s.currentWidth, s.currentHeight, s.currentQuality - 10⟩
  else
    let w := jsRound09 s.currentWidth
    let h := jsRound09 s.currentHeight
    if 2 * w < originalWidth ∨ 2 * h < originalHeight then
      .emit s.currentWidth s.currentHeight s.currentQuality
    else
      .next ⟨w, h, 60⟩

/-- The compression loop, run with explicit fuel; none means the fuel was
exhausted before the loop broke. On emit the result is the width, height
and quality at which the written buffer was encoded. -/
def runLoop (enc : ℕ → ℕ → ℕ → ℕ) (oW oH : ℕ) : ℕ → LoopState → Option (ℕ × ℕ × ℕ)
  | 0, _ => none
  | fuel + 1, s =>
    match loopStep enc oW oH s with
    | .emit w h q => some (w, h, q)
    | .next s' => runLoop enc oW oH fuel s'

/-- Initial loop state of the handler: original dimensions at quality 80. -/
def initState (oW oH : ℕ) : LoopState := ⟨oW, oH, 80⟩

/-- An encoder that always produces one byte more than the budget. -/
def encBig : ℕ → ℕ → ℕ → ℕ := fun _ _ _ => 307201

/-- An encoder that always produces an empty buffer. -/
def encZero : ℕ → ℕ → ℕ → ℕ := fun _ _ _ => 0

theorem jsRound09_le (w : ℕ) : jsRound09 w ≤ w := by
  unfold jsRound09; omega

theorem jsRound09_lt (w : ℕ) (h : 6 ≤ w) : jsRound09 w < w := by
  unfold jsRound09; omega

/-- Exhaustive case analysis of one loop iteration. -/
theorem loopStep_cases (enc : ℕ → ℕ → ℕ → ℕ) (oW oH : ℕ) (s : LoopState) :
    (enc s.currentWidth s.currentHeight s.currentQuality ≤ MAX_SIZE_BYTES
      ∧ loopStep enc oW oH s = .emit s.currentWidth s.currentHeight s.currentQuality)
    ∨ (¬ enc s.currentWidth s.currentHeight s.currentQuality ≤ MAX_SIZE_BYTES
      ∧ 10 < s.currentQuality
      ∧ loopStep enc oW oH s = .next ⟨s.currentWidth, s.currentHeight, s.currentQuality - 10⟩)
    ∨ (¬ enc s.currentWidth s.currentHeight s.currentQuality ≤ MAX_SIZE_BYTES
      ∧ s.currentQuality ≤ 10
      ∧ (2 * jsRound09 s.currentWidth < oW ∨ 2 * jsRound09 s.currentHeight < oH)
      ∧ loopStep enc oW oH s = .emit s.currentWidth s.currentHeight s.currentQuality)
    ∨ (¬ enc s.currentWidth s.currentHeight s.currentQuality ≤ MAX_SIZE_BYTES
      ∧ s.currentQuality ≤ 10
      ∧ oW ≤ 2 * jsRound09 s.currentWidth ∧ oH ≤ 2 * jsRound09 s.currentHeight
      ∧ loopStep enc oW oH s = .next ⟨jsRound09 s.currentWidth, jsRound09 s.currentHeight, 60⟩) := by
  by_cases h1 : enc s.currentWidth s.currentHeight s.currentQuality ≤ MAX_SIZE_BYTES
  · exact Or.inl ⟨h1, by unfold loopStep; rw [if_pos h1]⟩
  · by_cases h2 : 10 < s.currentQuality
    · exact Or.inr (Or.inl ⟨h1, h2, by unfold loopStep; rw [if_neg h1, if_pos h2]⟩)
    · by_cases h3 : 2 * jsRound09 s.currentWidth < oW ∨ 2 * jsRound09 s.currentHeight < oH
      · exact Or.inr (Or.inr (Or.inl ⟨h1, by omega, h3,
          by unfold loopStep; rw [if_neg h1, if_neg h2]; exact if_pos h3⟩))
      · exact Or.inr (Or.inr (Or.inr ⟨h1, by omega, by omega, by omega,
          by unfold loopStep; rw [if_neg h1, if_neg h2]; exact if_neg h3⟩))

/-- Every state reached by the loop keeps both dimensions at least half
of the originals, and on emit the written buffer either meets the byte
budget or the next scaled dimensions would fall below half the original
in some axis. -/
theorem runLoop_inv (enc : ℕ → ℕ → ℕ → ℕ) (oW oH : ℕ) :
    ∀ fuel s, oW ≤ 2 * s.currentWidth → oH ≤ 2 * s.currentHeight →
      ∀ w h q, runLoop enc oW oH fuel s = some (w, h, q) →
        (enc w h q ≤ MAX_SIZE_BYTES ∨ 2 * jsRound09 w < oW ∨ 2 * jsRound09 h < oH)
        ∧ oW ≤ 2 * w ∧ oH ≤ 2 * h := by
  intro fuel
  induction fuel with
  | zero => intro s _ _ w h q hrun; simp [runLoop] at hrun
  | succ n ih =>
    intro s hw hh w h q hrun
    rcases loopStep_cases enc oW oH s with ⟨hle, hstep⟩ | ⟨hgt, hq, hstep⟩ |
      ⟨hgt, hq, hfl, hstep⟩ | ⟨hgt, hq, hfw, hfh, hstep⟩
    · simp only [runLoop, hstep, Option.some.injEq, Prod.mk.injEq] at hrun
      obtain ⟨rfl, rfl, rfl⟩ := hrun
      exact ⟨Or.inl hle, hw, hh⟩
    · simp only [runLoop, hstep] at hrun
      exact ih ⟨s.currentWidth, s.currentHeight, s.currentQuality - 10⟩ hw hh w h q hrun
    · simp only [runLoop, hstep, Option.some.injEq, Prod.mk.injEq] at hrun
      obtain ⟨rfl, rfl, rfl⟩ := hrun
      exact ⟨Or.inr hfl, hw, hh⟩
    · simp only [runLoop, hstep] at hrun
      exact ih ⟨jsRound09 s.currentWidth, jsRound09 s.currentHeight, 60⟩ hfw hfh w h q hrun

/-- C1 counterexample: with an encoder that always produces 307201 bytes
and original dimensions 100 x 100, the loop exits emitting the buffer
encoded at 53 x 53 and quality 10. Its byte size exceeds 300 KB and its
dimensions exceed 50 percent of the originals, so neither disjunct of the
claimed exit invariant holds for the emitted buffer. -/
theorem c1_counterexample :
    runLoop encBig 100 100 50 (initState 100 100) = some (53, 53, 10)
    ∧ ¬ (encBig 53 53 10 ≤ MAX_SIZE_BYTES ∨ (2 * 53 ≤ 100 ∧ 2 * 53 ≤ 100)) := by
  decide

/-- C1 (amended): on every exit of the upload-image compression loop the
emitted buffer meets the 300 KB budget, or the next scaled dimensions
would fall below 50 percent of the originals in some axis; the emitted
dimensions themselves always stay at least 50 percent of the originals in
both axes. Moreover every continuing iteration either keeps the
dimensions and strictly decreases the quality, or, once quality is at its
floor of 10, resets quality to 60 and weakly shrinks both dimensions. -/
theorem c1_amended (enc : ℕ → ℕ → ℕ → ℕ) (oW oH fuel w h q : ℕ)
    (hrun : runLoop enc oW oH fuel (initState oW oH) = some (w, h, q)) :
    ((enc w h q ≤ MAX_SIZE_BYTES ∨ 2 * jsRound09 w < oW ∨ 2 * jsRound09 h < oH)
      ∧ oW ≤ 2 * w ∧ oH ≤ 2 * h)
    ∧ ∀ s s', loopStep enc oW oH s = .next s' →
        (s'.currentWidth = s.currentWidth ∧ s'.currentHeight = s.currentHeight
          ∧ s'.currentQuality < s.currentQuality)
        ∨ (s.currentQuality ≤ 10 ∧ s'.currentQuality = 60
          ∧ s'.currentWidth ≤ s.currentWidth ∧ s'.currentHeight ≤ s.currentHeight) := by
  constructor
  · exact runLoop_inv enc oW oH fuel (initState oW oH) (by show oW ≤ 2 * oW; omega)
      (by show oH ≤ 2 * oH; omega) w h q hrun
  · intro s s' hstep
    rcases loopStep_cases enc oW oH s with ⟨_, hs⟩ | ⟨_, hq, hs⟩ | ⟨_, _, _, hs⟩ |
      ⟨_, hq, _, _, hs⟩
    · rw [hs] at hstep; exact StepOut.noConfusion hstep
    · rw [hs] at hstep
      injection hstep with h'
      subst h'
      exact Or.inl ⟨rfl, rfl, by show s.currentQuality - 10 < s.currentQuality; omega⟩
    · rw [hs] at hstep; exact StepOut.noConfusion hstep
    · rw [hs] at hstep
      injection hstep with h'
      subst h'
      exact Or.inr ⟨hq, rfl, jsRound09_le _, jsRound09_le _⟩

/-- Witness for c1_amended at a concrete input: an encoder always within
budget exits the loop at once, at the original dimensions and quality 80. -/
theorem c1_witness :
    runLoop encZero 100 100 1 (initState 100 100) = some (100, 100, 80)
    ∧ (((encZero 100 100 80 ≤ MAX_SIZE_BYTES ∨ 2 * jsRound09 100 < 100 ∨ 2 * jsRound09 100 < 100)
        ∧ 100 ≤ 2 * 100 ∧ 100 ≤ 2 * 100)
      ∧ ∀ s s', loopStep encZero 100 100 s = .next s' →
          (s'.currentWidth = s.currentWidth ∧ s'.currentHeight = s.currentHeight
            ∧ s'.currentQuality < s.currentQuality)
          ∨ (s.currentQuality ≤ 10 ∧ s'.currentQuality = 60
            ∧ s'.currentWidth ≤ s.currentWidth ∧ s'.currentHeight ≤ s.currentHeight)) :=
  ⟨by decide, c1_amended encZero 100 100 1 100 100 80 (by decide)⟩

/-- With an always-over-budget encoder and 1 x 1 originals every loop
state with unit dimensions steps to another unit-dimension state, because
the JavaScript rounding of 0.9 fixes 1 and the half-size floor can never
trigger, so the loop never breaks. -/
theorem runLoop_unit_none : ∀ fuel q, runLoop encBig 1 1 fuel ⟨1, 1, q⟩ = none := by
  intro fuel
  induction fuel with
  | zero => intro q; rfl
  | succ n ih =>
    intro q
    by_cases hq : 10 < q
    · have hstep : loopStep encBig 1 1 ⟨1, 1, q⟩ = .next ⟨1, 1, q - 10⟩ := by
        unfold loopStep encBig MAX_SIZE_BYTES
        rw [if_neg (by omega), if_pos hq]
      simp only [runLoop, hstep]
      exact ih (q - 10)
    · have hq10 : q ≤ 10 := Nat.le_of_not_lt hq
      have hstep : loopStep encBig 1 1 ⟨1, 1, q⟩ = .next ⟨1, 1, 60⟩ := by
        interval_cases q <;> decide
      simp only [runLoop, hstep]
      exact ih 60

/-- C9 counterexample: for original dimensions 1 x 1 (both positive) and
an encoder that never meets the budget, the compression loop never
terminates: the shrink step is stuck at 1 and the dimension floor never
fires, so no amount of fuel makes the loop break. -/
theorem c9_counterexample :
    ¬ ∃ fuel r, runLoop encBig 1 1 fuel (initState 1 1) = some r := by
  rintro ⟨fuel, r, hr⟩
  rw [show initState 1 1 = ⟨1, 1, 80⟩ from rfl, runLoop_unit_none fuel 80] at hr
  exact Option.noConfusion hr

/-- Decreasing measure argument: while the width stays at least six, every
continuing iteration strictly decreases 7 * width + quality / 10, so the
loop breaks within the stated fuel. -/
theorem runLoop_terminates (enc : ℕ → ℕ → ℕ → ℕ) (oW oH : ℕ) (h11 : 11 ≤ oW) :
    ∀ fuel s, oW ≤ 2 * s.currentWidth →
      7 * s.currentWidth + s.currentQuality / 10 < fuel →
      ∃ r, runLoop enc oW oH fuel s = some r := by
  intro fuel
  induction fuel with
  | zero => intro s _ hm; omega
  | succ n ih =>
    intro s hw hm
    rcases loopStep_cases enc oW oH s with ⟨_, hstep⟩ | ⟨_, hq, hstep⟩ |
      ⟨_, _, _, hstep⟩ | ⟨_, hq, hfw, _, hstep⟩
    · exact ⟨(s.currentWidth, s.currentHeight, s.currentQuality),
        by simp only [runLoop, hstep]⟩
    · obtain ⟨r, hr⟩ := ih ⟨s.currentWidth, s.currentHeight, s.currentQuality - 10⟩
        hw (by show 7 * s.currentWidth + (s.currentQuality - 10) / 10 < n; omega)
      exact ⟨r, by simp only [runLoop, hstep]; exact hr⟩
    · exact ⟨(s.currentWidth, s.currentHeight, s.currentQuality),
        by simp only [runLoop, hstep]⟩
    · have hw6 : 6 ≤ s.currentWidth := by omega
      have hlt := jsRound09_lt s.currentWidth hw6
      obtain ⟨r, hr⟩ := ih ⟨jsRound09 s.currentWidth, jsRound09 s.currentHeight, 60⟩
        hfw (by show 7 * jsRound09 s.currentWidth + 60 / 10 < n; omega)
      exact ⟨r, by simp only [runLoop, hstep]; exact hr⟩

/-- C9 (amended): the upload-image compression loop terminates for every
encoder whenever the original width is at least 11 (symmetrically, the
same argument applies to the height): the rounded 10 percent shrink then
strictly decreases the width until the 50 percent floor fires, and the
iteration count is bounded by 7 * originalWidth + 9. For degenerate tiny
originals the rounded shrink has fixed points at or above the floor and
the loop need not terminate, as c9_counterexample shows. -/
theorem c9_amended (enc : ℕ → ℕ → ℕ → ℕ) (oW oH : ℕ) (h11 : 11 ≤ oW) :
    ∃ r, runLoop enc oW oH (7 * oW + 9) (initState oW oH) = some r :=
  runLoop_terminates enc oW oH h11 (7 * oW + 9) (initState oW oH)
    (by show oW ≤ 2 * oW; omega) (by show 7 * oW + 80 / 10 < 7 * oW + 9; omega)

/-- Witness for c9_amended at a concrete input. -/
theorem c9_witness :
    (11 ≤ 100 ∧ ∃ r, runLoop encBig 100 100 (7 * 100 + 9) (initState 100 100) = some r) :=
  ⟨by omega, c9_amended encBig 100 100 (by omega)⟩

/-!
Part 2: the client point-sequence editor
(app/components/RouteVisualizer.tsx).

The React state relevant to the drawing session is: points (the working
buffer, a flattened alternating x,y sequence), lines (the committed or
previewed polylines), drawingMode, lineFinished, and whether a base image
is loaded (image other than null). Coordinates are opaque payloads here
and are modelled as rationals. Each handler is a pure transformer of the
state visible at the render that dispatched it, matching the React
functional-update semantics of the source.
-/

/-- Drawing-session state of RouteVisualizer. -/
structure EditorState where
  points : List ℚ
  lines : List (List ℚ)
  drawingMode : Bool
  lineFinished : Bool
  imageLoaded : Bool
deriving DecidableEq, Repr

/-- handleMouseDown: rejected unless drawing mode is on and an image is
loaded; otherwise appends the clicked point to points, and if the
pre-click points already held at least two flattened coordinates, resets
lines to the single pre-click polyline (the source reads the stale
points binding of the render). -/
def handleMouseDown (s : EditorState) (x y : ℚ) : EditorState :=
  if !s.drawingMode || !s.imageLoaded then s
  else
    { s with
      points := s.points ++ [x, y],
      lines := if 2 ≤ s.points.length then [s.points] else s.lines }

/-- toggleDrawingMode: flips drawingMode; when leaving drawing mode it
clears points, lines and lineFinished. Entering drawing mode clears
nothing. -/
def toggleDrawingMode (s : EditorState) : EditorState :=
  if s.drawingMode then
    { s with drawingMode := false, points := [], lines := [], lineFinished := false }
  else
    { s with drawingMode := true }

/-- undoLastPoint: when points holds at least two flattened coordinates
(one point), drops the last two coordinates; the visible lines become the
shortened polyline when it still has at least two coordinates and empty
otherwise. With fewer than two flattened coordinates nothing happens. -/
def undoLastPoint (s : EditorState) : EditorState :=
  if 2 ≤ s.points.length then
    let newPoints := s.points.take (s.points.length - 2)
    { s with
      points := newPoints,
      lines := if 2 ≤ newPoints.length then [newPoints] else [] }
  else s

/-- finishLine: when points holds at least four flattened coordinates
(two points), commits the working buffer as the single finished polyline,
leaves drawing mode, clears the working buffer and sets lineFinished.
Otherwise nothing happens. -/
def finishLine (s : EditorState) : EditorState :=
  if 4 ≤ s.points.length then
    { s with
      lines := [s.points],
      drawingMode := false,
      points := [],
      lineFinished := true }
  else s

/-- Selection change (the loadRoute effect): resets the whole drawing
session and records whether the newly selected record has a loadable
base image. -/
def loadRouteReset (s : EditorState) (imageLoads : Bool) : EditorState :=
  { s with
    drawingMode := false, points := [], lines := [], lineFinished := false,
    imageLoaded := imageLoads }

/-- User-visible editor events. -/
inductive EditorEvent where
  | mouseDown (x y : ℚ)
  | toggleDraw
  | undo
  | finish
  | selectRoute (imageLoads : Bool)
deriving DecidableEq, Repr

/-- Dispatch of one event to its handler. -/
def applyEvent (s : EditorState) : EditorEvent → EditorState
  | .mouseDown x y => handleMouseDown s x y
  | .toggleDraw => toggleDrawingMode s
  | .undo => undoLastPoint s
  | .finish => finishLine s
  | .selectRoute b => loadRouteReset s b

/-- A session: events applied in order from a state. -/
def runEvents (s : EditorState) (evs : List EditorEvent) : EditorState :=
  evs.foldl applyEvent s

/-- Initial component state: nothing selected, nothing drawn. -/
def initialEditorState : EditorState :=
  ⟨[], [], false, false, false⟩

/-- C2 counterexample: a reachable editor state whose path holds exactly
one point (two flattened coordinates). The claim says undoLastPoint is a
no-op below two points, but the source guard compares the flattened
length with 2, so the single point is removed and the state changes. -/
theorem c2_counterexample :
    runEvents initialEditorState
        [.selectRoute true, .toggleDraw, .mouseDown 1 2]
      = ⟨[1, 2], [], true, false, true⟩
    ∧ undoLastPoint ⟨[1, 2], [], true, false, true⟩ ≠ ⟨[1, 2], [], true, false, true⟩
    ∧ (undoLastPoint ⟨[1, 2], [], true, false, true⟩).points = [] := by
  refine ⟨by decide, by decide, by decide⟩

/-- C2 (amended): undoLastPoint removes exactly the most recently added
point whenever the path holds at least one point (two flattened
coordinates) - including from a one-point path, which it empties; if
fewer than two points remain afterwards the visible lines become empty,
otherwise they show the shortened path; the mode flags are untouched; and
the operation is a no-op only on an empty working buffer. -/
theorem c2_amended (s : EditorState) (ps : List ℚ) (x y : ℚ)
    (hps : s.points = ps ++ [x, y]) :
    (undoLastPoint s).points = ps
    ∧ (2 ≤ ps.length → (undoLastPoint s).lines = [ps])
    ∧ (ps.length < 2 → (undoLastPoint s).lines = [])
    ∧ (undoLastPoint s).drawingMode = s.drawingMode
    ∧ (undoLastPoint s).lineFinished = s.lineFinished
    ∧ (∀ t : EditorState, t.points = [] → undoLastPoint t = t) := by
  have hlen : s.points.length = ps.length + 2 := by rw [hps]; simp
  have hcond : 2 ≤ s.points.length := by omega
  have htake : s.points.take (s.points.length - 2) = ps := by
    rw [hps]
    simp
  constructor
  · simp only [undoLastPoint, if_pos hcond, htake]
  refine ⟨?_, ?_, ?_, ?_, ?_⟩
  · intro h2
    simp only [undoLastPoint, if_pos hcond, htake, if_pos h2]
  · intro h2
    simp only [undoLastPoint, if_pos hcond, htake, if_neg (by omega : ¬ 2 ≤ ps.length)]
  · simp only [undoLastPoint, if_pos hcond, htake]
  · simp only [undoLastPoint, if_pos hcond, htake]
  · intro t ht
    simp only [undoLastPoint, ht]
    rfl

/-- Witness for c2_amended at a concrete three-point state. -/
theorem c2_witness :
    (undoLastPoint ⟨[1, 2, 3, 4, 5, 6], [], true, false, true⟩).points = [1, 2, 3, 4]
    ∧ (2 ≤ ([1, 2, 3, 4] : List ℚ).length →
        (undoLastPoint ⟨[1, 2, 3, 4, 5, 6], [], true, false, true⟩).lines = [[1, 2, 3, 4]])
    ∧ (([1, 2, 3, 4] : List ℚ).length < 2 →
        (undoLastPoint ⟨[1, 2, 3, 4, 5, 6], [], true, false, true⟩).lines = [])
    ∧ (undoLastPoint ⟨[1, 2, 3, 4, 5, 6], [], true, false, true⟩).drawingMode
        = (⟨[1, 2, 3, 4, 5, 6], [], true, false, true⟩ : EditorState).drawingMode
    ∧ (undoLastPoint ⟨[1, 2, 3, 4, 5, 6], [], true, false, true⟩).lineFinished
        = (⟨[1, 2, 3, 4, 5, 6], [], true, false, true⟩ : EditorState).lineFinished
    ∧ (∀ t : EditorState, t.points = [] → undoLastPoint t = t) :=
  c2_amended ⟨[1, 2, 3, 4, 5, 6], [], true, false, true⟩ [1, 2, 3, 4] 5 6 (by decide)

/-- C3: finishLine changes nothing when the working buffer holds fewer
than two points (four flattened coordinates); with at least two points it
commits the pre-finish buffer as the single finished polyline, leaves
drawing mode, sets lineFinished, and clears the working buffer, all other
fields unchanged. -/
theorem c3_finishLine (s : EditorState) :
    (s.points.length < 4 → finishLine s = s)
    ∧ (4 ≤ s.points.length →
        finishLine s
          = { s with
              lines := [s.points], drawingMode := false, points := [],
              lineFinished := true }) := by
  constructor
  · intro h
    simp only [finishLine, if_neg (by omega : ¬ 4 ≤ s.points.length)]
  · intro h
    simp only [finishLine, if_pos h]

/-- Witness for c3_finishLine at concrete states on both sides of the
threshold. -/
theorem c3_witness :
    finishLine ⟨[1, 2, 3, 4], [], true, false, true⟩
      = ⟨[], [[1, 2, 3, 4]], false, true, true⟩
    ∧ finishLine ⟨[1, 2], [], true, false, true⟩ = ⟨[1, 2], [], true, false, true⟩ :=
  ⟨(c3_finishLine ⟨[1, 2, 3, 4], [], true, false, true⟩).2 (by decide),
   (c3_finishLine ⟨[1, 2], [], true, false, true⟩).1 (by decide)⟩

/-- C4 counterexample: a session that finishes a line and then merely
re-enters drawing mode, with no reset in between, reaches a state where
lineFinished is still true and yet handleMouseDown appends a point. -/
theorem c4_counterexample :
    (runEvents initialEditorState
        [.selectRoute true, .toggleDraw, .mouseDown 1 1, .mouseDown 2 2,
         .finish, .toggleDraw]
      = ⟨[], [[1, 1, 2, 2]], true, true, true⟩)
    ∧ (⟨[], [[1, 1, 2, 2]], true, true, true⟩ : EditorState).lineFinished = true
    ∧ handleMouseDown ⟨[], [[1, 1, 2, 2]], true, true, true⟩ 3 3
        ≠ ⟨[], [[1, 1, 2, 2]], true, true, true⟩
    ∧ (handleMouseDown ⟨[], [[1, 1, 2, 2]], true, true, true⟩ 3 3).points = [3, 3] := by
  refine ⟨by decide, by decide, by decide, by decide⟩

/-- C4 (amended): while drawing mode is on and an image is loaded, every
handleMouseDown call appends exactly its one point at the end of the
working buffer, so a sequence of calls grows it by one point per call in
call order; the call is a no-op when drawing mode is off or no image is
loaded - in particular right after finishing, while drawing mode stays
off. Re-entering drawing mode, which is not a session reset and leaves
lineFinished set, re-enables handleMouseDown. -/
theorem c4_amended (s : EditorState) (x y : ℚ) :
    (s.drawingMode = true → s.imageLoaded = true →
      (handleMouseDown s x y).points = s.points ++ [x, y])
    ∧ ((s.drawingMode = false ∨ s.imageLoaded = false) → handleMouseDown s x y = s)
    ∧ (s.lineFinished = true → s.drawingMode = false → handleMouseDown s x y = s) := by
  refine ⟨?_, ?_, ?_⟩
  · intro hd hi
    simp only [handleMouseDown, hd, hi, Bool.not_true, Bool.false_or, Bool.or_self]
    rfl
  · rintro (h | h) <;> simp [handleMouseDown, h]
  · intro _ hd
    simp [handleMouseDown, hd]

/-- Witness for c4_amended at concrete states. -/
theorem c4_witness :
    (handleMouseDown ⟨[1, 1], [], true, false, true⟩ 2 2).points = [1, 1] ++ [2, 2]
    ∧ handleMouseDown ⟨[1, 1], [], false, false, true⟩ 2 2
        = ⟨[1, 1], [], false, false, true⟩
    ∧ handleMouseDown ⟨[], [[1, 1, 2, 2]], false, true, true⟩ 3 3
        = ⟨[], [[1, 1, 2, 2]], false, true, true⟩ :=
  ⟨(c4_amended ⟨[1, 1], [], true, false, true⟩ 2 2).1 rfl rfl,
   (c4_amended ⟨[1, 1], [], false, false, true⟩ 2 2).2.1 (Or.inl rfl),
   (c4_amended ⟨[], [[1, 1, 2, 2]], false, true, true⟩ 3 3).2.2 rfl rfl⟩

/-!
Part 3: the server handlers.

app/api/upload-image/route.ts and app/api/optimize-route-line/route.ts
are sequential pipelines over external collaborators (sharp, the blob
store, the record store, the filesystem). Each handler is modelled as a
function from its request fields and a World - the external
nondeterminism: the mkdtemp result, the Date.now timestamp, the encoder
size function and which collaborator calls fail - to the HTTP response
paired with the ordered trace of collaborator effects it performed. A
thrown error is modelled by the catch-all branch: the handler stops
performing effects and returns the uniform 500 response.
-/

/-- One observable collaborator call of a handler. -/
inductive Eff where
  | mkdtempE (dirTag : String)
  | sharpEncode (w h quality effort : ℕ) (fit : String)
  | fsWriteFile (path : String)
  | fsReadFile (path : String)
  | storageUpload (bucket path contentType : String) (upsert : Bool)
  | storageGetPublicUrl (bucket path : String)
  | dbUpdate (table field id : String)
  | fsRm (path : String) (recursive : Bool)
deriving DecidableEq, Repr

/-- The JSON response of a handler: 200 with url and message, or the
uniform error payload with its status code. -/
inductive ApiResponse where
  | ok (url message : String)
  | err (status : ℕ) (error : String)
deriving DecidableEq, Repr

/-- External nondeterminism of one request. -/
structure World where
  tmpDirName : String
  timestamp : ℕ
  enc : ℕ → ℕ → ℕ → ℕ
  encodeFails : Bool
  uploadFails : Bool
  updateFails : Bool

/-- The public URL the blob store resolves for a path: a function of the
bucket and the path only. -/
def publicUrlFor (bucket p : String) : String :=
  "public/" ++ bucket ++ "/" ++ p

/-- Folder selection of app/api/upload-image/route.ts: boulder records go
to boulder_lines or boulder, route records to routes_lines or routes. -/
def uploadFolder (tableType : String) (hasLine : Bool) : String :=
  if hasLine then
    if tableType = "boulder" then "boulder_lines" else "routes_lines"
  else
    if tableType = "boulder" then "boulder" else "routes"

/-- Emit result of the compression loop together with the encode trace:
one sharpEncode per iteration, at effort 6 with fill fit. -/
structure LoopOut where
  width : ℕ
  height : ℕ
  quality : ℕ
  trace : List Eff
deriving DecidableEq, Repr

/-- The compression loop of upload-image with its encode trace. -/
def runLoopTr (enc : ℕ → ℕ → ℕ → ℕ) (oW oH : ℕ) :
    ℕ → LoopState → List Eff → Option LoopOut
  | 0, _, _ => none
  | fuel + 1, s, acc =>
    let acc' := acc ++
      [Eff.sharpEncode s.currentWidth s.currentHeight s.currentQuality 6 "fill"]
    match loopStep enc oW oH s with
    | .emit w h q => some ⟨w, h, q, acc'⟩
    | .next s' => runLoopTr enc oW oH fuel s' acc'

/-- POST of app/api/optimize-route-line/route.ts. The request body also
carries a tableType field, which this handler never reads. It encodes
once at quality 80, effort 6, fill fit to the supplied dimensions,
uploads to routes_lines under a name suffixed with the request timestamp,
updates image_line of the route table, and removes the temp directory
only on the all-success path. -/
def optimizeRouteLinePOST (w : World) (routeId : String)
    (originalWidth originalHeight : ℕ) (tableType : String) :
    ApiResponse × List Eff :=
  let tmpDir := w.tmpDirName
  let tmpFilePath := tmpDir ++ "/" ++ routeId ++ ".webp"
  let t2 : List Eff :=
    [.mkdtempE "route-lines-", .sharpEncode originalWidth originalHeight 80 6 "fill"]
  if w.encodeFails then (.err 500 "Failed to process image", t2)
  else
    let t3 := t2 ++ [.fsWriteFile tmpFilePath, .fsReadFile tmpFilePath]
    let fileName := routeId ++ "_" ++ toString w.timestamp ++ ".webp"
    let filePath := "routes_lines/" ++ fileName
    let t4 := t3 ++ [.storageUpload "cactux" filePath "image/webp" true]
    if w.uploadFails then (.err 500 "Failed to process image", t4)
    else
      let t5 := t4 ++ [.storageGetPublicUrl "cactux" filePath]
      let t6 := t5 ++ [.dbUpdate "route" "image_line" routeId]
      if w.updateFails then (.err 500 "Failed to process image", t6)
      else
        (.ok (publicUrlFor "cactux" filePath) "Image with line saved successfully",
         t6 ++ [.fsRm tmpDir true])

/-- POST of the unnamed source file part_001, an optimize-route-line
variant: folder boulders_lines or routes_lines chosen by tableType, blob
name routeId.webp without a timestamp, record update in the table named
by tableType. -/
def optimizeRouteLinePart001POST (w : World) (routeId : String)
    (originalWidth originalHeight : ℕ) (tableType : String) :
    ApiResponse × List Eff :=
  let folderName := if tableType = "boulder" then "boulders_lines" else "routes_lines"
  let tmpDir := w.tmpDirName
  let tmpFilePath := tmpDir ++ "/" ++ routeId ++ ".webp"
  let t2 : List Eff :=
    [.mkdtempE (tableType ++ "-lines-"),
     .sharpEncode originalWidth originalHeight 80 6 "fill"]
  if w.encodeFails then (.err 500 "Failed to process image", t2)
  else
    let t3 := t2 ++ [.fsWriteFile tmpFilePath, .fsReadFile tmpFilePath]
    let filePath := folderName ++ "/" ++ routeId ++ ".webp"
    let t4 := t3 ++ [.storageUpload "cactux" filePath "image/webp" true]
    if w.uploadFails then (.err 500 "Failed to process image", t4)
    else
      let t5 := t4 ++ [.storageGetPublicUrl "cactux" filePath]
      let t6 := t5 ++ [.dbUpdate tableType "image_line" routeId]
      if w.updateFails then (.err 500 "Failed to process image", t6)
      else
        (.ok (publicUrlFor "cactux" filePath) "Image with line saved successfully",
         t6 ++ [.fsRm tmpDir true])

/-- POST of app/api/upload-image/route.ts: runs the compression loop,
writes the accepted buffer to the temp file, uploads it to the canonical
folderName/routeId.webp path with upsert, updates image_line or image of
the table named by tableType, and removes the temp directory only on the
all-success path. none models a request on which the loop never breaks. -/
def uploadImagePOST (w : World) (routeId : String)
    (originalWidth originalHeight : ℕ) (tableType : String) (hasLine : Bool)
    (fuel : ℕ) : Option (ApiResponse × List Eff) :=
  let folderName := uploadFolder tableType hasLine
  let tmpDir := w.tmpDirName
  let tmpFilePath := tmpDir ++ "/" ++ routeId ++ ".webp"
  let t1 : List Eff := [.mkdtempE (tableType ++ "-image-")]
  if w.encodeFails then
    some (.err 500 "Failed to process image",
      t1 ++ [.sharpEncode originalWidth originalHeight 80 6 "fill"])
  else
    match runLoopTr w.enc originalWidth originalHeight fuel
        (initState originalWidth originalHeight) [] with
    | none => none
    | some out =>
      let t2 := t1 ++ out.trace ++ [Eff.fsWriteFile tmpFilePath]
      let filePath := folderName ++ "/" ++ routeId ++ ".webp"
      let t3 := t2 ++ [Eff.storageUpload "cactux" filePath "image/webp" true]
      if w.uploadFails then some (.err 500 "Failed to process image", t3)
      else
        let t4 := t3 ++ [Eff.storageGetPublicUrl "cactux" filePath]
        let t5 := t4 ++
          [Eff.dbUpdate tableType (if hasLine then "image_line" else "image") routeId]
        if w.updateFails then some (.err 500 "Failed to process image", t5)
        else
          some (.ok (publicUrlFor "cactux" filePath) "Image saved successfully",
            t5 ++ [Eff.fsRm tmpDir true])

/-- Recognizer for encode effects. -/
def isEncode : Eff → Bool
  | .sharpEncode _ _ _ _ _ => true
  | _ => false

/-- Recognizer for blob-store upload effects. -/
def isUpload : Eff → Bool
  | .storageUpload _ _ _ _ => true
  | _ => false

/-- Recognizer for record-store update effects. -/
def isDbUpdate : Eff → Bool
  | .dbUpdate _ _ _ => true
  | _ => false

/-- Recognizer for temp-directory removal effects. -/
def isRm : Eff → Bool
  | .fsRm _ _ => true
  | _ => false

/-- Recognizer for the success response. -/
def isOkResp : ApiResponse → Bool
  | .ok _ _ => true
  | .err _ _ => false

/-- The traced loop only appends encode effects to its accumulator. -/
theorem runLoopTr_trace (enc : ℕ → ℕ → ℕ → ℕ) (oW oH : ℕ) :
    ∀ fuel s acc out, runLoopTr enc oW oH fuel s acc = some out →
      ∃ l, out.trace = acc ++ l ∧ ∀ e ∈ l, isEncode e = true := by
  intro fuel
  induction fuel with
  | zero => intro s acc out hout; simp [runLoopTr] at hout
  | succ n ih =>
    intro s acc out hout
    cases hstep : loopStep enc oW oH s with
    | emit ew eh eq =>
      simp only [runLoopTr, hstep, Option.some.injEq] at hout
      subst hout
      refine ⟨[Eff.sharpEncode s.currentWidth s.currentHeight s.currentQuality 6 "fill"],
        rfl, ?_⟩
      intro e he
      simp only [List.mem_singleton] at he
      subst he
      rfl
    | next s' =>
      simp only [runLoopTr, hstep] at hout
      obtain ⟨l, hl, hall⟩ := ih s'
        (acc ++ [Eff.sharpEncode s.currentWidth s.currentHeight s.currentQuality 6 "fill"])
        out hout
      refine ⟨[Eff.sharpEncode s.currentWidth s.currentHeight s.currentQuality 6 "fill"]
        ++ l, ?_, ?_⟩
      · rw [hl, List.append_assoc]
      · intro e he
        rcases List.mem_append.1 he with he | he
        · simp only [List.mem_singleton] at he
          subst he
          rfl
        · exact hall e he

/-- A predicate false on encode effects filters an all-encode trace to
the empty list. -/
theorem filter_encodes_nil (p : Eff → Bool) (hp : ∀ e, isEncode e = true → p e = false) :
    ∀ l : List Eff, (∀ e ∈ l, isEncode e = true) → l.filter p = [] := by
  intro l
  induction l with
  | nil => intro _; rfl
  | cons a l ih =>
    intro hl
    have ha : p a = false := hp a (hl a (List.mem_cons_self a l))
    simp only [List.filter_cons, ha, Bool.false_eq_true, if_false]
    exact ih (fun e he => hl e (List.mem_cons_of_mem a he))

/-- Filter facts and response of the optimize-route-line handler in every
failure scenario. -/
theorem optimizeRouteLinePOST_spec (w : World) (rid : String) (oW oH : ℕ)
    (tt : String) :
    (optimizeRouteLinePOST w rid oW oH tt).2.filter isEncode
        = [Eff.sharpEncode oW oH 80 6 "fill"]
    ∧ (optimizeRouteLinePOST w rid oW oH tt).2.filter isUpload
        = (if w.encodeFails then []
           else [Eff.storageUpload "cactux"
               ("routes_lines/" ++ (rid ++ "_" ++ toString w.timestamp ++ ".webp"))
               "image/webp" true])
    ∧ (optimizeRouteLinePOST w rid oW oH tt).2.filter isDbUpdate
        = (if w.encodeFails || w.uploadFails then []
           else [Eff.dbUpdate "route" "image_line" rid])
    ∧ (optimizeRouteLinePOST w rid oW oH tt).2.filter isRm
        = (if w.encodeFails || w.uploadFails || w.updateFails then []
           else [Eff.fsRm w.tmpDirName true])
    ∧ (optimizeRouteLinePOST w rid oW oH tt).1
        = (if w.encodeFails || w.uploadFails || w.updateFails then
             ApiResponse.err 500 "Failed to process image"
           else
             ApiResponse.ok
               (publicUrlFor "cactux"
                 ("routes_lines/" ++ (rid ++ "_" ++ toString w.timestamp ++ ".webp")))
               "Image with line saved successfully") := by
  cases hE : w.encodeFails <;> cases hU : w.uploadFails <;> cases hD : w.updateFails <;>
    simp [optimizeRouteLinePOST, hE, hU, hD, isEncode, isUpload, isDbUpdate, isRm]

/-- Filter facts and response of the part_001 variant in every failure
scenario. -/
theorem optimizeRouteLinePart001POST_spec (w : World) (rid : String) (oW oH : ℕ)
    (tt : String) :
    (optimizeRouteLinePart001POST w rid oW oH tt).2.filter isEncode
        = [Eff.sharpEncode oW oH 80 6 "fill"]
    ∧ (optimizeRouteLinePart001POST w rid oW oH tt).2.filter isDbUpdate
        = (if w.encodeFails || w.uploadFails then []
           else [Eff.dbUpdate tt "image_line" rid])
    ∧ (optimizeRouteLinePart001POST w rid oW oH tt).1
        = (if w.encodeFails || w.uploadFails || w.updateFails then
             ApiResponse.err 500 "Failed to process image"
           else
             ApiResponse.ok
               (publicUrlFor "cactux"
                 ((if tt = "boulder" then "boulders_lines" else "routes_lines")
                   ++ "/" ++ rid ++ ".webp"))
               "Image with line saved successfully") := by
  cases hE : w.encodeFails <;> cases hU : w.uploadFails <;> cases hD : w.updateFails <;>
    simp [optimizeRouteLinePart001POST, hE, hU, hD, isEncode, isDbUpdate]

/-- Exhaustive case analysis of the upload-image handler: the encode
throw, fuel exhaustion, and the three post-loop scenarios, each with the
full response and effect trace. -/
theorem uploadImagePOST_cases (w : World) (rid tt : String) (oW oH fuel : ℕ)
    (hasLine : Bool) :
    (w.encodeFails = true
      ∧ uploadImagePOST w rid oW oH tt hasLine fuel
          = some (ApiResponse.err 500 "Failed to process image",
              [Eff.mkdtempE (tt ++ "-image-"), Eff.sharpEncode oW oH 80 6 "fill"]))
    ∨ (w.encodeFails = false
      ∧ uploadImagePOST w rid oW oH tt hasLine fuel = none)
    ∨ (∃ out, w.encodeFails = false
      ∧ runLoopTr w.enc oW oH fuel (initState oW oH) [] = some out
      ∧ (∀ e ∈ out.trace, isEncode e = true)
      ∧ ((w.uploadFails = true
          ∧ uploadImagePOST w rid oW oH tt hasLine fuel
              = some (ApiResponse.err 500 "Failed to process image",
                  [Eff.mkdtempE (tt ++ "-image-")] ++ out.trace
                    ++ [Eff.fsWriteFile (w.tmpDirName ++ "/" ++ rid ++ ".webp"),
                        Eff.storageUpload "cactux"
                          (uploadFolder tt hasLine ++ "/" ++ rid ++ ".webp")
                          "image/webp" true]))
        ∨ (w.uploadFails = false ∧ w.updateFails = true
          ∧ uploadImagePOST w rid oW oH tt hasLine fuel
              = some (ApiResponse.err 500 "Failed to process image",
                  [Eff.mkdtempE (tt ++ "-image-")] ++ out.trace
                    ++ [Eff.fsWriteFile (w.tmpDirName ++ "/" ++ rid ++ ".webp"),
                        Eff.storageUpload "cactux"
                          (uploadFolder tt hasLine ++ "/" ++ rid ++ ".webp")
                          "image/webp" true,
                        Eff.storageGetPublicUrl "cactux"
                          (uploadFolder tt hasLine ++ "/" ++ rid ++ ".webp"),
                        Eff.dbUpdate tt (if hasLine then "image_line" else "image") rid]))
        ∨ (w.uploadFails = false ∧ w.updateFails = false
          ∧ uploadImagePOST w rid oW oH tt hasLine fuel
              = some (ApiResponse.ok
                  (publicUrlFor "cactux" (uploadFolder tt hasLine ++ "/" ++ rid ++ ".webp"))
                  "Image saved successfully",
                  [Eff.mkdtempE (tt ++ "-image-")] ++ out.trace
                    ++ [Eff.fsWriteFile (w.tmpDirName ++ "/" ++ rid ++ ".webp"),
                        Eff.storageUpload "cactux"
                          (uploadFolder tt hasLine ++ "/" ++ rid ++ ".webp")
                          "image/webp" true,
                        Eff.storageGetPublicUrl "cactux"
                          (uploadFolder tt hasLine ++ "/" ++ rid ++ ".webp"),
                        Eff.dbUpdate tt (if hasLine then "image_line" else "image") rid,
                        Eff.fsRm w.tmpDirName true])))) := by
  cases hE : w.encodeFails
  · cases hLoop : runLoopTr w.enc oW oH fuel (initState oW oH) [] with
    | none =>
      refine Or.inr (Or.inl ⟨rfl, ?_⟩)
      simp [uploadImagePOST, hE, hLoop]
    | some out =>
      refine Or.inr (Or.inr ⟨out, rfl, rfl, ?_, ?_⟩)
      · obtain ⟨l, hl, hall⟩ := runLoopTr_trace w.enc oW oH fuel _ [] out hLoop
        rw [hl]
        intro e he
        exact hall e (by simpa using he)
      · cases hU : w.uploadFails
        · cases hD : w.updateFails
          · refine Or.inr (Or.inr ⟨rfl, rfl, ?_⟩)
            simp [uploadImagePOST, hE, hLoop, hU, hD]
          · refine Or.inr (Or.inl ⟨rfl, rfl, ?_⟩)
            simp [uploadImagePOST, hE, hLoop, hU, hD]
        · refine Or.inl ⟨rfl, ?_⟩
          simp [uploadImagePOST, hE, hLoop, hU]
  · refine Or.inl ⟨rfl, ?_⟩
    simp [uploadImagePOST, hE]

/-- C5: the dedicated route-line save path performs exactly one encode,
at quality 80 and effort 6 with the fill fit to the supplied original
dimensions, in every scenario and in both source variants of the handler;
it never iterates toward a size budget. -/
theorem c5_singleEncode (w : World) (rid : String) (oW oH : ℕ) (tt : String) :
    (optimizeRouteLinePOST w rid oW oH tt).2.filter isEncode
        = [Eff.sharpEncode oW oH 80 6 "fill"]
    ∧ (optimizeRouteLinePart001POST w rid oW oH tt).2.filter isEncode
        = [Eff.sharpEncode oW oH 80 6 "fill"] :=
  ⟨(optimizeRouteLinePOST_spec w rid oW oH tt).1,
   (optimizeRouteLinePart001POST_spec w rid oW oH tt).1⟩

/-- C10: the optimize-route-line handler behaves identically for every
tableType value of the request body; every blob it uploads goes to the
routes_lines folder under the timestamped name, and every record update
it performs targets the image_line field of the route table. -/
theorem c10_routeLineFixedTarget (w : World) (rid : String) (oW oH : ℕ)
    (tt tt' : String) :
    optimizeRouteLinePOST w rid oW oH tt = optimizeRouteLinePOST w rid oW oH tt'
    ∧ (optimizeRouteLinePOST w rid oW oH tt).2.filter isUpload
        = (if w.encodeFails then []
           else [Eff.storageUpload "cactux"
               ("routes_lines/" ++ (rid ++ "_" ++ toString w.timestamp ++ ".webp"))
               "image/webp" true])
    ∧ (optimizeRouteLinePOST w rid oW oH tt).2.filter isDbUpdate
        = (if w.encodeFails || w.uploadFails then []
           else [Eff.dbUpdate "route" "image_line" rid]) :=
  ⟨rfl, (optimizeRouteLinePOST_spec w rid oW oH tt).2.1,
   (optimizeRouteLinePOST_spec w rid oW oH tt).2.2.1⟩

/-- A fully successful request world with request timestamp 1. -/
def wOk : World := ⟨"/tmp/d", 1, encZero, false, false, false⟩

/-- A fully successful request world with request timestamp 2. -/
def wOk2 : World := ⟨"/tmp/d", 2, encZero, false, false, false⟩

/-- A world whose blob-store upload fails. -/
def wUpFail : World := ⟨"/tmp/d", 5, encZero, false, true, false⟩

/-- A world whose sharp encode throws. -/
def wEncFail : World := ⟨"/tmp/d", 0, encZero, true, false, false⟩

/-- Result of the upload-image handler in wEncFail. -/
def rEncFail : ApiResponse × List Eff :=
  (.err 500 "Failed to process image",
   [.mkdtempE "route-image-", .sharpEncode 4 4 80 6 "fill"])

/-- Result of the upload-image handler in wUpFail. -/
def rUpFail : ApiResponse × List Eff :=
  (.err 500 "Failed to process image",
   [.mkdtempE "route-image-", .sharpEncode 8 8 80 6 "fill",
    .fsWriteFile "/tmp/d/r1.webp",
    .storageUpload "cactux" "routes_lines/r1.webp" "image/webp" true])

/-- C6 counterexample: two successful optimize-route-line saves of the
same record at timestamps 1 and 2 upload to two distinct timestamped
paths, neither of which is the canonical routes_lines/r7.webp, so live
blobs accumulate instead of overwriting one canonical path; moreover the
upload-image folder for a boulder line is boulder_lines, not the claimed
boulders_lines. -/
theorem c6_counterexample :
    (optimizeRouteLinePOST wOk "r7" 100 80 "route").2.filter isUpload
      = [Eff.storageUpload "cactux" "routes_lines/r7_1.webp" "image/webp" true]
    ∧ (optimizeRouteLinePOST wOk2 "r7" 100 80 "route").2.filter isUpload
      = [Eff.storageUpload "cactux" "routes_lines/r7_2.webp" "image/webp" true]
    ∧ ("routes_lines/r7_1.webp" : String) ≠ "routes_lines/r7_2.webp"
    ∧ ("routes_lines/r7_1.webp" : String) ≠ "routes_lines/r7.webp"
    ∧ (uploadImagePOST wOk "r7" 8 8 "boulder" true 3).map (fun r => r.2.filter isUpload)
      = some [Eff.storageUpload "cactux" "boulder_lines/r7.webp" "image/webp" true]
    ∧ ("boulder_lines/r7.webp" : String) ≠ "boulders_lines/r7.webp" := by
  refine ⟨by decide, by decide, by decide, by decide, by decide, by decide⟩

/-- C6 (amended): the upload-image handler uploads only to the canonical
folderName/routeId.webp path - folderName being routes, boulder,
routes_lines or boulder_lines - always with upsert, and the path does not
depend on the request world, so a second save of the same record and
category overwrites the same blob; the optimize-route-line handler
instead uploads only to routes_lines/routeId_timestamp.webp, a fresh path
per request timestamp, so its repeated saves accumulate distinct live
blobs. -/
theorem c6_amended (w : World) (rid tt : String) (oW oH fuel : ℕ) (hasLine : Bool)
    (r : ApiResponse × List Eff)
    (hr : uploadImagePOST w rid oW oH tt hasLine fuel = some r) :
    r.2.filter isUpload
      = (if w.encodeFails then []
         else [Eff.storageUpload "cactux"
             (uploadFolder tt hasLine ++ "/" ++ rid ++ ".webp") "image/webp" true])
    ∧ (optimizeRouteLinePOST w rid oW oH tt).2.filter isUpload
      = (if w.encodeFails then []
         else [Eff.storageUpload "cactux"
             ("routes_lines/" ++ (rid ++ "_" ++ toString w.timestamp ++ ".webp"))
             "image/webp" true]) := by
  refine ⟨?_, (optimizeRouteLinePOST_spec w rid oW oH tt).2.1⟩
  rcases uploadImagePOST_cases w rid tt oW oH fuel hasLine with
    ⟨hE, hsome⟩ | ⟨hE, hnone⟩ | ⟨out, hE, hLoop, hEnc, hrest⟩
  · rw [hr] at hsome
    obtain rfl := Option.some.inj hsome
    simp [hE, isUpload]
  · rw [hr] at hnone
    exact absurd hnone (by simp)
  · have hNil : out.trace.filter isUpload = [] :=
      filter_encodes_nil isUpload
        (by intro e he; cases e <;> first | rfl | simp [isEncode] at he) out.trace hEnc
    rcases hrest with ⟨hU, hsome⟩ | ⟨hU, hD, hsome⟩ | ⟨hU, hD, hsome⟩
    · rw [hr] at hsome
      obtain rfl := Option.some.inj hsome
      simp [hE, List.filter_append, hNil, isUpload]
    · rw [hr] at hsome
      obtain rfl := Option.some.inj hsome
      simp [hE, List.filter_append, hNil, isUpload]
    · rw [hr] at hsome
      obtain rfl := Option.some.inj hsome
      simp [hE, List.filter_append, hNil, isUpload]

/-- Witness for c6_amended at a concrete request. -/
theorem c6_witness :
    uploadImagePOST wEncFail "r1" 4 4 "route" true 1 = some rEncFail
    ∧ rEncFail.2.filter isUpload
        = (if wEncFail.encodeFails then []
           else [Eff.storageUpload "cactux"
               (uploadFolder "route" true ++ "/" ++ "r1" ++ ".webp") "image/webp" true])
    ∧ (optimizeRouteLinePOST wEncFail "r1" 4 4 "route").2.filter isUpload
        = (if wEncFail.encodeFails then []
           else [Eff.storageUpload "cactux"
               ("routes_lines/" ++ ("r1" ++ "_" ++ toString wEncFail.timestamp ++ ".webp"))
               "image/webp" true]) :=
  ⟨by decide,
   (c6_amended wEncFail "r1" "route" 4 4 1 true rEncFail (by decide)).1,
   (c6_amended wEncFail "r1" "route" 4 4 1 true rEncFail (by decide)).2⟩

/-- C7: whenever the blob-store upload fails, each handler returns the
uniform 500 failure response and its trace contains no record-store
update: the pipeline aborts before any image_line or image mutation. -/
theorem c7_uploadFailureAborts (w : World) (rid tt : String) (oW oH fuel : ℕ)
    (hasLine : Bool) (hup : w.uploadFails = true) :
    ((optimizeRouteLinePOST w rid oW oH tt).1 = .err 500 "Failed to process image"
      ∧ (optimizeRouteLinePOST w rid oW oH tt).2.filter isDbUpdate = [])
    ∧ ((optimizeRouteLinePart001POST w rid oW oH tt).1 = .err 500 "Failed to process image"
      ∧ (optimizeRouteLinePart001POST w rid oW oH tt).2.filter isDbUpdate = [])
    ∧ (∀ r, uploadImagePOST w rid oW oH tt hasLine fuel = some r →
        r.1 = .err 500 "Failed to process image" ∧ r.2.filter isDbUpdate = []) := by
  refine ⟨⟨?_, ?_⟩, ⟨?_, ?_⟩, ?_⟩
  · rw [(optimizeRouteLinePOST_spec w rid oW oH tt).2.2.2.2]
    simp [hup]
  · rw [(optimizeRouteLinePOST_spec w rid oW oH tt).2.2.1]
    simp [hup]
  · rw [(optimizeRouteLinePart001POST_spec w rid oW oH tt).2.2]
    simp [hup]
  · rw [(optimizeRouteLinePart001POST_spec w rid oW oH tt).2.1]
    simp [hup]
  · intro r hr
    rcases uploadImagePOST_cases w rid tt oW oH fuel hasLine with
      ⟨hE, hsome⟩ | ⟨hE, hnone⟩ | ⟨out, hE, hLoop, hEnc, hrest⟩
    · rw [hr] at hsome
      obtain rfl := Option.some.inj hsome
      exact ⟨rfl, by simp [isDbUpdate]⟩
    · rw [hr] at hnone
      exact absurd hnone (by simp)
    · have hNil : out.trace.filter isDbUpdate = [] :=
        filter_encodes_nil isDbUpdate
          (by intro e he; cases e <;> first | rfl | simp [isEncode] at he) out.trace hEnc
      rcases hrest with ⟨hU, hsome⟩ | ⟨hU, hD, hsome⟩ | ⟨hU, hD, hsome⟩
      · rw [hr] at hsome
        obtain rfl := Option.some.inj hsome
        exact ⟨rfl, by simp [List.filter_append, hNil, isDbUpdate]⟩
      · simp [hU] at hup
      · simp [hU] at hup

/-- Witness for c7_uploadFailureAborts at a concrete request. -/
theorem c7_witness :
    ((optimizeRouteLinePOST wUpFail "r1" 8 8 "route").1 = .err 500 "Failed to process image"
      ∧ (optimizeRouteLinePOST wUpFail "r1" 8 8 "route").2.filter isDbUpdate = [])
    ∧ ((optimizeRouteLinePart001POST wUpFail "r1" 8 8 "route").1
          = .err 500 "Failed to process image"
      ∧ (optimizeRouteLinePart001POST wUpFail "r1" 8 8 "route").2.filter isDbUpdate = [])
    ∧ (rUpFail.1 = .err 500 "Failed to process image"
      ∧ rUpFail.2.filter isDbUpdate = []) :=
  ⟨(c7_uploadFailureAborts wUpFail "r1" "route" 8 8 3 true rfl).1,
   (c7_uploadFailureAborts wUpFail "r1" "route" 8 8 3 true rfl).2.1,
   (c7_uploadFailureAborts wUpFail "r1" "route" 8 8 3 true rfl).2.2 rUpFail (by decide)⟩

/-- C8 counterexample: on a request whose upload fails, the
optimize-route-line handler creates its temp directory, returns the 500
response, and performs no removal of the temp directory: the temp work is
left behind on the failure path. -/
theorem c8_counterexample :
    (optimizeRouteLinePOST wUpFail "r1" 10 10 "route").1
        = .err 500 "Failed to process image"
    ∧ Eff.mkdtempE "route-lines-" ∈ (optimizeRouteLinePOST wUpFail "r1" 10 10 "route").2
    ∧ (optimizeRouteLinePOST wUpFail "r1" 10 10 "route").2.filter isRm = [] := by
  refine ⟨by decide, by decide, by decide⟩

/-- C8 (amended): each handler removes its temp directory exactly on the
success path; on every failure response the trace contains no removal, so
the temp directory and its file are left behind. -/
theorem c8_amended (w : World) (rid tt : String) (oW oH fuel : ℕ) (hasLine : Bool) :
    ((optimizeRouteLinePOST w rid oW oH tt).2.filter isRm
      = (if isOkResp (optimizeRouteLinePOST w rid oW oH tt).1
         then [Eff.fsRm w.tmpDirName true] else []))
    ∧ (∀ r, uploadImagePOST w rid oW oH tt hasLine fuel = some r →
        r.2.filter isRm
          = (if isOkResp r.1 then [Eff.fsRm w.tmpDirName true] else [])) := by
  constructor
  · rw [(optimizeRouteLinePOST_spec w rid oW oH tt).2.2.2.1,
      (optimizeRouteLinePOST_spec w rid oW oH tt).2.2.2.2]
    cases hE : w.encodeFails <;> cases hU : w.uploadFails <;> cases hD : w.updateFails <;>
      simp [isOkResp]
  · intro r hr
    rcases uploadImagePOST_cases w rid tt oW oH fuel hasLine with
      ⟨hE, hsome⟩ | ⟨hE, hnone⟩ | ⟨out, hE, hLoop, hEnc, hrest⟩
    · rw [hr] at hsome
      obtain rfl := Option.some.inj hsome
      simp [isRm, isOkResp]
    · rw [hr] at hnone
      exact absurd hnone (by simp)
    · have hNil : out.trace.filter isRm = [] :=
        filter_encodes_nil isRm
          (by intro e he; cases e <;> first | rfl | simp [isEncode] at he) out.trace hEnc
      rcases hrest with ⟨hU, hsome⟩ | ⟨hU, hD, hsome⟩ | ⟨hU, hD, hsome⟩
      · rw [hr] at hsome
        obtain rfl := Option.some.inj hsome
        simp [List.filter_append, hNil, isRm, isOkResp]
      · rw [hr] at hsome
        obtain rfl := Option.some.inj hsome
        simp [List.filter_append, hNil, isRm, isOkResp]
      · rw [hr] at hsome
        obtain rfl := Option.some.inj hsome
        simp [List.filter_append, hNil, isRm, isOkResp]

/-- Witness for c8_amended at concrete requests. -/
theorem c8_witness :
    ((optimizeRouteLinePOST wUpFail "r1" 10 10 "route").2.filter isRm
      = (if isOkResp (optimizeRouteLinePOST wUpFail "r1" 10 10 "route").1
         then [Eff.fsRm wUpFail.tmpDirName true] else []))
    ∧ uploadImagePOST wUpFail "r1" 8 8 "route" true 3 = some rUpFail
    ∧ rUpFail.2.filter isRm
        = (if isOkResp rUpFail.1 then [Eff.fsRm wUpFail.tmpDirName true] else []) :=
  ⟨(c8_amended wUpFail "r1" "route" 10 10 3 true).1,
   by decide,
   (c8_amended wUpFail "r1" "route" 8 8 3 true).2 rUpFail (by decide)⟩

/-- The traced loop agrees with the plain loop on the emitted encode
parameters, so Part 1 and Part 3 model the same source loop. -/
theorem runLoopTr_agrees (enc : ℕ → ℕ → ℕ → ℕ) (oW oH : ℕ) :
    ∀ fuel s acc out, runLoopTr enc oW oH fuel s acc = some out →
      runLoop enc oW oH fuel s = some (out.width, out.height, out.quality) := by
  intro fuel
  induction fuel with
  | zero => intro s acc out hout; simp [runLoopTr] at hout
  | succ n ih =>
    intro s acc out hout
    cases hstep : loopStep enc oW oH s with
    | emit ew eh eq =>
      simp only [runLoopTr, hstep, Option.some.injEq] at hout
      subst hout
      simp only [runLoop, hstep]
    | next s' =>
      simp only [runLoopTr, hstep] at hout
      simp only [runLoop, hstep]
      exact ih s' _ out hout
